import Mathlib

/-!
Verification of the WebDAV notebook sync flow of ext-saladict.

The embedding models the pure decision logic of the three transport
operations (initServer, upload, dlChanged in
src/background/sync-manager/services/webdav) and of the orchestrator
(download, syncServiceUpload in src/background/sync-manager/index.ts),
plus the reflect helper from src/_helpers/promise-more.ts.

External effects are made explicit: HTTP responses, the stored meta and
the notebook are inputs; the HTTP requests the code builds and the
storage writes it performs are outputs.  JavaScript truthiness of the
number-or-absent fields is modelled by jsTruthy on Option Nat, which is
faithful for the non-negative integers these fields hold.
-/

namespace Saladict

/-- Sync service configuration, from the SyncConfig interface of the
webdav service module.  The url field ends with a slash. -/
structure SyncConfig where
  url : String
  user : String
  passwd : String
  duration : Nat
  deriving Repr, DecidableEq

/-- Locally stored fingerprint of the last reconciled remote state,
from the Meta interface of the webdav service module.  Both fields are
optional in the source. -/
structure Meta where
  etag : Option String
  timestamp : Option Nat
  deriving Repr, DecidableEq

/-- The meta value used when no meta is stored: the empty object. -/
def emptyMeta : Meta := ⟨none, none⟩

/-- A notebook word.  Opaque to the sync flow except for its date
field, which dlChanged checks for truthiness. -/
structure RawWord where
  date : Option Nat
  deriving Repr, DecidableEq

/-- The words field of a parsed remote JSON body: either not an array
at all, or a list of words. -/
inductive WordsField where
  | notArray
  | arr (ws : List RawWord)
  deriving Repr, DecidableEq

/-- A parsed remote notebook.json body before validation. -/
structure RawFile where
  timestamp : Option Nat
  words : WordsField
  deriving Repr, DecidableEq

/-- The wire format of the notebook file after validation, mirroring
the NotebookFile interface: a timestamp and an array of words.  The
timestamp is optional here because dlChanged skips the timestamp check
entirely when the local meta has no truthy timestamp, letting a file
without one through. -/
structure NotebookFile where
  timestamp : Option Nat
  words : List RawWord
  deriving Repr, DecidableEq

/-- Result of a successful conditional download, mirroring the
DlResponse interface: the validated file and the ETag response header,
with the empty string standing in for an absent header. -/
structure DlResponse where
  json : NotebookFile
  etag : String
  deriving Repr, DecidableEq

/-- Body of an HTTP response to the conditional GET: response.json()
either throws (malformed) or yields a parsed value. -/
inductive Body where
  | malformed
  | parsed (file : RawFile)
  deriving Repr, DecidableEq

/-- The parts of an HTTP response that dlChanged inspects. -/
structure HttpResponse where
  status : Nat
  body : Body
  etagHeader : Option String
  deriving Repr, DecidableEq

/-- JavaScript truthiness of a number-or-absent field: absent, and the
number 0, are falsy. -/
def jsTruthy : Option Nat → Bool
  | none => false
  | some n => n != 0

/-- The service identifier constant of the webdav module. -/
def serviceID : String := "webdav"

/-- The base64 alphabet. -/
def base64Chars : List Char :=
  "ABCDEFGHIJKLMNOPQRSTUVWXYZabcdefghijklmnopqrstuvwxyz0123456789+/".toList

/-- Character of the base64 alphabet at a given index. -/
def b64Char (n : Nat) : Char := base64Chars.getD n 'A'

/-- Base64-encode a byte list, three bytes to four characters, padding
with = signs. -/
def b64Encode : List Nat → List Char
  | [] => []
  | [a] => [b64Char (a / 4), b64Char (a % 4 * 16), '=', '=']
  | [a, b] => [b64Char (a / 4), b64Char (a % 4 * 16 + b / 16), b64Char (b % 16 * 4), '=']
  | a :: b :: c :: rest =>
    b64Char (a / 4) :: b64Char (a % 4 * 16 + b / 16) ::
      b64Char (b % 16 * 4 + c / 64) :: b64Char (c % 64) :: b64Encode rest

/-- Model of window.btoa, which base64-encodes the code points of a
latin-1 string and throws above 255; the modulo keeps the model total
and agrees with the browser on every input btoa accepts. -/
def btoa (s : String) : String :=
  String.mk (b64Encode (s.data.map (fun ch => ch.toNat % 256)))

/-- The Basic authentication header value the webdav module builds on
its requests. -/
def authHeader (c : SyncConfig) : String :=
  "Basic " ++ btoa (c.user ++ ":" ++ c.passwd)

/-- An outgoing HTTP request as the webdav module assembles it: method,
url, and the headers the module ever sets. -/
structure HttpRequest where
  method : String
  url : String
  authHdr : Option String
  ifNoneMatch : Option String
  ifModifiedSince : Option String
  contentType : Option String
  depth : Option String
  reqBody : Option String
  deriving Repr, DecidableEq

/-- The PUT request built by upload. -/
def uploadRequest (c : SyncConfig) (text : String) : HttpRequest :=
  ⟨"PUT", c.url ++ "Saladict/notebook.json", some (authHeader c),
    none, none, none, none, some text⟩

/-- The conditional GET request built by dlChanged: the If-None-Match
and If-Modified-Since headers are both set to meta.etag whenever that
field is not null or undefined, which includes the empty string. -/
def dlRequest (c : SyncConfig) (m : Meta) : HttpRequest :=
  ⟨"GET", c.url ++ "Saladict/notebook.json", some (authHeader c),
    m.etag, m.etag, none, none, none⟩

/-- The PROPFIND request built by initServer. -/
def propfindRequest (c : SyncConfig) : HttpRequest :=
  ⟨"PROPFIND", c.url, some (authHeader c), none, none,
    some "application/xml; charset=utf-8", some "2", none⟩

/-- The MKCOL request built by initServer.  The source passes no
headers object to this fetch call, so no Authorization header is set. -/
def mkcolRequest (c : SyncConfig) : HttpRequest :=
  ⟨"MKCOL", c.url ++ "Saladict", none, none, none, none, none, none⟩

/-- Decision logic of dlChanged given the stored meta and the GET
response, transcribed from the sequence of early returns in the
source: 304 means no change; a body that fails to parse, a words field
that is not an array, or any word with a falsy date is logged and
treated as no change; when the local meta timestamp is truthy, a
missing remote timestamp or one not strictly larger is no change;
otherwise the file is returned with the ETag header or the empty
string. -/
def dlChanged (meta : Meta) (resp : HttpResponse) : Option DlResponse :=
  if resp.status = 304 then none
  else
    match resp.body with
    | Body.malformed => none
    | Body.parsed file =>
      match file.words with
      | WordsField.notArray => none
      | WordsField.arr ws =>
        if ws.any (fun w => !jsTruthy w.date) then none
        else if jsTruthy meta.timestamp then
          if !jsTruthy file.timestamp then none
          else if file.timestamp.getD 0 ≤ meta.timestamp.getD 0 then none
          else some ⟨⟨file.timestamp, ws⟩, resp.etagHeader.getD ""⟩
        else some ⟨⟨file.timestamp, ws⟩, resp.etagHeader.getD ""⟩

/-!
Orchestrator state and the download cycle of
src/background/sync-manager/index.ts.
-/

/-- The local persistent state the orchestrator touches: the stored
meta for the webdav service and the notebook words. -/
structure SyncState where
  meta : Option Meta
  notebook : List RawWord
  deriving Repr, DecidableEq

/-- A storage write the download cycle performs, in order: setMeta or
setNotebook. -/
inductive WriteOp where
  | writeMeta (m : Meta)
  | writeNotebook (ws : List RawWord)
  deriving Repr, DecidableEq

/-- The ordered list of storage writes the internal download function
performs: nothing when dlChanged reports no change, and otherwise
first setMeta with the timestamp of the file and the etag of the
response, then setNotebook with the words of the file. -/
def downloadWrites (st : SyncState) (resp : HttpResponse) : List WriteOp :=
  match dlChanged (st.meta.getD emptyMeta) resp with
  | none => []
  | some r =>
    [WriteOp.writeMeta ⟨some r.etag, r.json.timestamp⟩,
     WriteOp.writeNotebook r.json.words]

/-- Effect of one storage write on the local state. -/
def applyWrite (st : SyncState) : WriteOp → SyncState
  | WriteOp.writeMeta m => ⟨some m, st.notebook⟩
  | WriteOp.writeNotebook ws => ⟨st.meta, ws⟩

/-- Effect of a list of storage writes, applied left to right. -/
def applyWrites (st : SyncState) (l : List WriteOp) : SyncState :=
  l.foldl applyWrite st

/-- The internal download primitive: read the stored meta (or the
empty object), ask dlChanged, and either stop or apply its writes. -/
def download (st : SyncState) (resp : HttpResponse) : SyncState :=
  applyWrites st (downloadWrites st resp)

/-- The environment a syncServiceUpload invocation sees: the response
to the download cycle it runs first, the value of Date.now at
serialization time, and whether the PUT of upload came back ok. -/
structure UploadEnv where
  dlResp : HttpResponse
  now : Nat
  uploadOk : Bool
  deriving Repr, DecidableEq

/-- Result of a syncServiceUpload invocation: the final local state
and, when a PUT was issued, the file serialized into its text. -/
structure UploadOutcome where
  state : SyncState
  uploaded : Option NotebookFile
  deriving Repr, DecidableEq

/-- syncServiceUpload: without a config it is a no-op; otherwise it
runs a download cycle, reads the notebook, stops if it is empty,
serializes the notebook with the current time as timestamp, uploads
the text, and on a successful upload overwrites the meta with that
timestamp and an empty etag.  Serialization of plain data never
throws, so the stringify catch branch is not reachable in the model. -/
def syncServiceUpload (config : Option SyncConfig) (st : SyncState)
    (env : UploadEnv) : UploadOutcome :=
  match config with
  | none => ⟨st, none⟩
  | some _ =>
    let st1 := download st env.dlResp
    let words := st1.notebook
    if words.length ≤ 0 then ⟨st1, none⟩
    else
      let file : NotebookFile := ⟨some env.now, words⟩
      if env.uploadOk then
        ⟨⟨some ⟨some "", some env.now⟩, st1.notebook⟩, some file⟩
      else ⟨st1, some file⟩

/-!
initServer of the webdav service module.
-/

/-- One response entry of the PROPFIND multi-status body: the
textContent of its href child when that child exists and has text,
and whether a resourcetype collection descendant exists. -/
structure PfEntry where
  href : Option String
  isCollection : Bool
  deriving Repr, DecidableEq

/-- Outcome of the PROPFIND fetch and XML parse of initServer. -/
inductive PropfindOutcome where
  | networkError
  | parseFailure
  | entries (l : List PfEntry)
  deriving Repr, DecidableEq

/-- The environment an initServer invocation sees. -/
structure InitEnv where
  propfind : PropfindOutcome
  mkcolOk : Bool
  storedMeta : Option Meta
  getResp : HttpResponse
  deriving Repr, DecidableEq

/-- Model of the endsWith test on strings, over their characters. -/
def strEndsWith (s suffix : String) : Bool :=
  suffix.data.isSuffixOf s.data

/-- The directory scan of initServer over the PROPFIND entries,
transcribed with JavaScript semantics of Array.prototype.some: the
callback returns true when the entry href ends in /Saladict/ and a
collection resourcetype is found, and otherwise returns the object
built by Promise.reject applied to the string dir, which is also
truthy; that rejected promise is never awaited or returned from
initServer, so it floats unhandled and the scan result is simply
whether some entry href ends in /Saladict/. -/
def dirScan (entries : List PfEntry) : Bool :=
  entries.any (fun el =>
    match el.href with
    | none => false
    | some h => (h != "") && strEndsWith h "/Saladict/")

/-- The staleness check at the end of initServer, over the awaited
result of the conditional download: when a file came back and the
stored meta timestamp is strictly greater than the file timestamp,
reject with exist; otherwise resolve. -/
def staleCheck (t : Nat) (file : Option DlResponse) : Except String Unit :=
  match file with
  | some f =>
    match f.json.timestamp with
    | some s => if s < t then Except.error "exist" else Except.ok ()
    | none => Except.ok ()
  | none => Except.ok ()

/-- initServer: PROPFIND the base url (network failure rejects with
network, parse failure with parse); scan for the Saladict directory;
when the scan misses, MKCOL the directory and reject with mkcol on a
non-ok response; when the scan hits and a stored meta with truthy
timestamp exists, run the conditional download and the staleness
check.  The config only feeds the request urls and headers, which
initServerRequests records. -/
def initServer (_c : SyncConfig) (env : InitEnv) : Except String Unit :=
  match env.propfind with
  | PropfindOutcome.networkError => Except.error "network"
  | PropfindOutcome.parseFailure => Except.error "parse"
  | PropfindOutcome.entries entries =>
    if dirScan entries then
      match env.storedMeta with
      | some m =>
        if jsTruthy m.timestamp then
          staleCheck (m.timestamp.getD 0) (dlChanged m env.getResp)
        else Except.ok ()
      | none => Except.ok ()
    else if env.mkcolOk then Except.ok ()
    else Except.error "mkcol"

/-- The HTTP requests initServer issues, in order, mirroring its
control flow: always the PROPFIND; then, when the directory scan
misses, the MKCOL; when the scan hits and the stored meta has a
truthy timestamp, the conditional GET of dlChanged. -/
def initServerRequests (c : SyncConfig) (env : InitEnv) : List HttpRequest :=
  match env.propfind with
  | PropfindOutcome.networkError => [propfindRequest c]
  | PropfindOutcome.parseFailure => [propfindRequest c]
  | PropfindOutcome.entries entries =>
    if dirScan entries then
      match env.storedMeta with
      | some m =>
        if jsTruthy m.timestamp then [propfindRequest c, dlRequest c m]
        else [propfindRequest c]
      | none => [propfindRequest c]
    else [propfindRequest c, mkcolRequest c]

/-!
reflect of src/_helpers/promise-more.ts.  A settled input promise is an
Except value: ok for fulfilled, error for rejected.  Each input is
wrapped in Promise.resolve and given a catch handler that turns a
rejection into null, so every element of the Promise.all input
fulfills and the combined promise always fulfills, elementwise with
the value or null.
-/

/-- reflect: map each settled input to its value, or to null when it
rejected, preserving length and order. -/
def reflect {E T : Type} (l : List (Except E T)) : List (Option T) :=
  l.map (fun p =>
    match p with
    | Except.ok v => some v
    | Except.error _ => none)

/-!
Theorems settling the claims.
-/


/-- Helper: when dlChanged reports no change, the download cycle performs no
writes and leaves the local state untouched. -/
theorem download_eq_self_of_none (st : SyncState) (resp : HttpResponse)
    (h : dlChanged (st.meta.getD emptyMeta) resp = none) :
    download st resp = st := by
  simp [download, downloadWrites, h, applyWrites]

/-- Helper: when dlChanged returns a file, the download cycle writes the meta
and then the notebook. -/
theorem download_eq_apply_of_some (st : SyncState) (resp : HttpResponse)
    (r : DlResponse)
    (h : dlChanged (st.meta.getD emptyMeta) resp = some r) :
    download st resp = ⟨some ⟨some r.etag, r.json.timestamp⟩, r.json.words⟩ := by
  simp [download, downloadWrites, h, applyWrites, applyWrite]

/-- Claim C1: the staleness step of initServer, run on the awaited result of
the conditional download after the directory scan confirmed the Saladict
collection and the stored meta timestamp is truthy, rejects with the reason
string exist whenever that download returned a file whose timestamp is
strictly smaller than the stored meta timestamp. -/
theorem initServer_stale_rejects_exist (t s : Nat) (f : DlResponse)
    (hs : f.json.timestamp = some s) (hlt : s < t) :
    staleCheck t (some f) = Except.error "exist" := by
  simp [staleCheck, hs, hlt]

theorem initServer_stale_rejects_exist_witness :
    staleCheck 1000 (some ⟨⟨some 500, []⟩, "W"⟩) = Except.error "exist" :=
  initServer_stale_rejects_exist 1000 500 ⟨⟨some 500, []⟩, "W"⟩ rfl (by decide)



/-- Claim C2 evaluation: against a PROPFIND body listing Saladict/ as an
existing non-collection resource, initServer resolves instead of rejecting
with the reason string dir, and issues no MKCOL request: the rejected promise
built in the scan callback is a truthy object for Array.prototype.some, so
the scan treats the entry as a found directory and the rejection floats
unhandled. -/
theorem initServer_non_collection_resolves :
    initServer ⟨"https://dav.example.com/", "user", "passwd", 60000⟩
        ⟨PropfindOutcome.entries [⟨some "/dav/user/Saladict/", false⟩], false, none,
          ⟨304, Body.malformed, none⟩⟩
      = Except.ok ()
    ∧ (initServerRequests ⟨"https://dav.example.com/", "user", "passwd", 60000⟩
        ⟨PropfindOutcome.entries [⟨some "/dav/user/Saladict/", false⟩], false, none,
          ⟨304, Body.malformed, none⟩⟩).map (fun r => r.method)
      = ["PROPFIND"] :=
  ⟨rfl, by decide⟩

/-- Claim C3 evaluation: when the PROPFIND listing misses Saladict/, the
request trace of initServer is the PROPFIND followed by the MKCOL; the
PROPFIND carries the Basic authentication header but the MKCOL carries no
Authorization header at all, because that fetch call passes no headers. -/
theorem mkcol_request_lacks_auth :
    initServerRequests ⟨"https://dav.example.com/", "user", "passwd", 60000⟩
        ⟨PropfindOutcome.entries [⟨some "/dav/user/other/", true⟩], true, none,
          ⟨304, Body.malformed, none⟩⟩
      = [propfindRequest ⟨"https://dav.example.com/", "user", "passwd", 60000⟩,
         mkcolRequest ⟨"https://dav.example.com/", "user", "passwd", 60000⟩]
    ∧ (propfindRequest ⟨"https://dav.example.com/", "user", "passwd", 60000⟩).authHdr
      = some (authHeader ⟨"https://dav.example.com/", "user", "passwd", 60000⟩)
    ∧ (mkcolRequest ⟨"https://dav.example.com/", "user", "passwd", 60000⟩).authHdr
      = none := by
  refine ⟨by decide, rfl, rfl⟩



/-- Claim C4 counterexample: a stored meta whose timestamp field holds 0 is
falsy to the JavaScript truthiness test guarding the staleness comparison, so
a remote file with timestamp 0, which is less than or equal to the stored
timestamp, is nevertheless applied: the meta and the notebook both change. -/
theorem download_zero_timestamp_applies :
    download ⟨some ⟨none, some 0⟩, []⟩
        ⟨200, Body.parsed ⟨some 0, WordsField.arr [⟨some 1⟩]⟩, some "x"⟩
      = ⟨some ⟨some "x", some 0⟩, [⟨some 1⟩]⟩
    ∧ download ⟨some ⟨none, some 0⟩, []⟩
        ⟨200, Body.parsed ⟨some 0, WordsField.arr [⟨some 1⟩]⟩, some "x"⟩
      ≠ ⟨some ⟨none, some 0⟩, []⟩ := by
  exact ⟨by decide, by decide⟩

/-- Claim C4 amended: for every stored meta with nonzero timestamp t and
every response whose parsed file has a timestamp at most t, dlChanged
reports no change and the download cycle performs no writes, leaving meta
and notebook exactly unchanged. -/
theorem download_stale_noop (st : SyncState) (m : Meta) (t s : Nat)
    (resp : HttpResponse) (file : RawFile)
    (hm : st.meta = some m) (ht : m.timestamp = some t) (ht0 : t ≠ 0)
    (hbody : resp.body = Body.parsed file) (hs : file.timestamp = some s)
    (hle : s ≤ t) :
    dlChanged m resp = none ∧ downloadWrites st resp = [] ∧
      download st resp = st := by
  have hdl : dlChanged m resp = none := by
    by_cases h304 : resp.status = 304
    · simp [dlChanged, h304]
    · rcases hw : file.words with _ | ws
      · simp [dlChanged, h304, hbody, hw]
      · by_cases hany : ws.any (fun w => !jsTruthy w.date) = true
        · simp [dlChanged, h304, hbody, hw, hany]
        · by_cases hs0 : s = 0
          · simp [dlChanged, h304, hbody, hw, hany, jsTruthy, ht, ht0, hs, hs0]
          · simp [dlChanged, h304, hbody, hw, hany, jsTruthy, ht, ht0, hs, hs0, hle]
  have hws : downloadWrites st resp = [] := by
    simp [downloadWrites, hm, hdl]
  exact ⟨hdl, hws, by simp [download, hws, applyWrites]⟩

theorem download_stale_noop_witness :
    dlChanged ⟨none, some 1000⟩
        ⟨200, Body.parsed ⟨some 1000, WordsField.arr [⟨some 1⟩]⟩, some "x"⟩ = none ∧
    downloadWrites ⟨some ⟨none, some 1000⟩, [⟨some 3⟩]⟩
        ⟨200, Body.parsed ⟨some 1000, WordsField.arr [⟨some 1⟩]⟩, some "x"⟩ = [] ∧
    download ⟨some ⟨none, some 1000⟩, [⟨some 3⟩]⟩
        ⟨200, Body.parsed ⟨some 1000, WordsField.arr [⟨some 1⟩]⟩, some "x"⟩
      = ⟨some ⟨none, some 1000⟩, [⟨some 3⟩]⟩ :=
  download_stale_noop ⟨some ⟨none, some 1000⟩, [⟨some 3⟩]⟩ ⟨none, some 1000⟩
    1000 1000 ⟨200, Body.parsed ⟨some 1000, WordsField.arr [⟨some 1⟩]⟩, some "x"⟩
    ⟨some 1000, WordsField.arr [⟨some 1⟩]⟩ rfl rfl (by decide) rfl rfl (by decide)



/-- Claim C5: a response other than a 304 whose parsed file has an array of
words all carrying a truthy date, and whose timestamp is strictly greater
than the stored meta timestamp, or whose stored meta has no timestamp, is
applied: the notebook receives the words of the file and the meta is
overwritten with exactly the file timestamp and the ETag header of the
response, with the empty string when the server omitted that header. -/
theorem download_newer_applies (st : SyncState) (resp : HttpResponse)
    (file : RawFile) (ws : List RawWord)
    (h304 : resp.status ≠ 304)
    (hbody : resp.body = Body.parsed file)
    (hws : file.words = WordsField.arr ws)
    (hdates : ∀ w ∈ ws, jsTruthy w.date = true)
    (hnewer : (st.meta.getD emptyMeta).timestamp = none
      ∨ ∃ t s, (st.meta.getD emptyMeta).timestamp = some t
          ∧ file.timestamp = some s ∧ t < s) :
    dlChanged (st.meta.getD emptyMeta) resp
        = some ⟨⟨file.timestamp, ws⟩, resp.etagHeader.getD ""⟩
    ∧ download st resp
        = ⟨some ⟨some (resp.etagHeader.getD ""), file.timestamp⟩, ws⟩ := by
  have hany : ws.any (fun w => !jsTruthy w.date) = false := by
    rw [List.any_eq_false]
    intro w hw
    simp [hdates w hw]
  have hdl : dlChanged (st.meta.getD emptyMeta) resp
      = some ⟨⟨file.timestamp, ws⟩, resp.etagHeader.getD ""⟩ := by
    rcases hnewer with hmt | ⟨t, s, hmt, hft, hlt⟩
    · have htm : jsTruthy (st.meta.getD emptyMeta).timestamp = false := by
        simp [jsTruthy, hmt]
      simp [dlChanged, h304, hbody, hws, hany, htm]
    · by_cases ht0 : t = 0
      · have htm : jsTruthy (st.meta.getD emptyMeta).timestamp = false := by
          simp [jsTruthy, hmt, ht0]
        simp [dlChanged, h304, hbody, hws, hany, htm]
      · have htm : jsTruthy (st.meta.getD emptyMeta).timestamp = true := by
          simp [jsTruthy, hmt]
          omega
        have hftT : jsTruthy file.timestamp = true := by
          simp [jsTruthy, hft]
          omega
        have hcmp : ¬ file.timestamp.getD 0 ≤ (st.meta.getD emptyMeta).timestamp.getD 0 := by
          simp [hft, hmt]
          omega
        simp [dlChanged, h304, hbody, hws, hany, htm, hftT, hcmp]
  exact ⟨hdl, download_eq_apply_of_some st resp _ hdl⟩

theorem download_newer_applies_witness :
    dlChanged ((⟨some ⟨some "old", some 10⟩, []⟩ : SyncState).meta.getD emptyMeta)
        ⟨200, Body.parsed ⟨some 11, WordsField.arr [⟨some 1⟩]⟩, none⟩
      = some ⟨⟨some 11, [⟨some 1⟩]⟩, ""⟩
    ∧ download ⟨some ⟨some "old", some 10⟩, []⟩
        ⟨200, Body.parsed ⟨some 11, WordsField.arr [⟨some 1⟩]⟩, none⟩
      = ⟨some ⟨some "", some 11⟩, [⟨some 1⟩]⟩ :=
  download_newer_applies ⟨some ⟨some "old", some 10⟩, []⟩
    ⟨200, Body.parsed ⟨some 11, WordsField.arr [⟨some 1⟩]⟩, none⟩
    ⟨some 11, WordsField.arr [⟨some 1⟩]⟩ [⟨some 1⟩]
    (by decide) rfl rfl (by decide)
    (Or.inr ⟨10, 11, rfl, rfl, by decide⟩)



/-- Claim C6: whenever the PUT of syncServiceUpload succeeds, the meta
written afterwards holds exactly the timestamp that was serialized into the
uploaded file text and an empty etag, regardless of any etag the meta held
before. -/
theorem upload_success_meta (c : SyncConfig) (st : SyncState) (env : UploadEnv)
    (f : NotebookFile)
    (hok : env.uploadOk = true)
    (hup : (syncServiceUpload (some c) st env).uploaded = some f) :
    (syncServiceUpload (some c) st env).state.meta = some ⟨some "", f.timestamp⟩
    ∧ f.timestamp = some env.now := by
  by_cases hlen : (download st env.dlResp).notebook.length ≤ 0
  · exfalso
    simp [syncServiceUpload, hlen] at hup
  · have hfeq : f = ⟨some env.now, (download st env.dlResp).notebook⟩ := by
      have := hup
      simp [syncServiceUpload, hlen, hok] at this
      exact this.symm
    subst hfeq
    simp [syncServiceUpload, hlen, hok]

theorem upload_success_meta_witness :
    (syncServiceUpload (some ⟨"https://d/", "u", "p", 5⟩)
        ⟨some ⟨some "nonempty-etag", some 7⟩, [⟨some 2⟩]⟩
        ⟨⟨304, Body.malformed, none⟩, 42, true⟩).state.meta
      = some ⟨some "", some 42⟩
    ∧ (some 42 : Option Nat) = some 42 :=
  upload_success_meta ⟨"https://d/", "u", "p", 5⟩
    ⟨some ⟨some "nonempty-etag", some 7⟩, [⟨some 2⟩]⟩
    ⟨⟨304, Body.malformed, none⟩, 42, true⟩
    ⟨some 42, [⟨some 2⟩]⟩ rfl (by decide)



/-- Claim C7: a response whose body is malformed JSON, or parses with a
words field that is not an array, or has some word lacking a date field, is
treated by dlChanged as no change for every meta, and the download cycle
leaves the local state untouched; the model returns normally, mirroring the
source which logs and returns instead of throwing. -/
theorem dlChanged_malformed_noop (m : Meta) (st : SyncState)
    (resp : HttpResponse)
    (h : resp.body = Body.malformed
      ∨ (∃ file, resp.body = Body.parsed file ∧ file.words = WordsField.notArray)
      ∨ (∃ file ws w, resp.body = Body.parsed file ∧ file.words = WordsField.arr ws
          ∧ w ∈ ws ∧ w.date = none)) :
    dlChanged m resp = none ∧ download st resp = st := by
  have key : ∀ m0 : Meta, dlChanged m0 resp = none := by
    intro m0
    rcases h with hb | ⟨file, hb, hw⟩ | ⟨file, ws, w, hb, hw, hmem, hdate⟩
    · simp [dlChanged, hb]
    · simp [dlChanged, hb, hw]
    · have hany : ws.any (fun w => !jsTruthy w.date) = true :=
        List.any_eq_true.mpr ⟨w, hmem, by simp [jsTruthy, hdate]⟩
      simp [dlChanged, hb, hw, hany]
  exact ⟨key m, download_eq_self_of_none st resp (key _)⟩

theorem dlChanged_malformed_noop_witness :
    dlChanged ⟨some "E", some 5⟩ ⟨200, Body.malformed, some "x"⟩ = none
    ∧ download ⟨some ⟨some "E", some 5⟩, [⟨some 9⟩]⟩ ⟨200, Body.malformed, some "x"⟩
      = ⟨some ⟨some "E", some 5⟩, [⟨some 9⟩]⟩ :=
  dlChanged_malformed_noop ⟨some "E", some 5⟩ ⟨some ⟨some "E", some 5⟩, [⟨some 9⟩]⟩
    ⟨200, Body.malformed, some "x"⟩ (Or.inl rfl)

/-- Claim C8: dlChanged attaches the If-None-Match and If-Modified-Since
headers whenever meta.etag is not null or undefined, including when it is
the empty string; and the meta stored by a successful syncServiceUpload has
an empty-string etag, so the conditional GET built from it still carries
both headers with the empty value. -/
theorem dlRequest_conditional_headers (c : SyncConfig) (m : Meta) (e : String)
    (st : SyncState) (env : UploadEnv) (f : NotebookFile)
    (he : m.etag = some e) (hok : env.uploadOk = true)
    (hup : (syncServiceUpload (some c) st env).uploaded = some f) :
    ((dlRequest c m).ifNoneMatch = some e
      ∧ (dlRequest c m).ifModifiedSince = some e)
    ∧ ∃ m', (syncServiceUpload (some c) st env).state.meta = some m'
        ∧ m'.etag = some ""
        ∧ (dlRequest c m').ifNoneMatch = some ""
        ∧ (dlRequest c m').ifModifiedSince = some "" := by
  refine ⟨⟨by simp [dlRequest, he], by simp [dlRequest, he]⟩, ?_⟩
  by_cases hlen : (download st env.dlResp).notebook.length ≤ 0
  · exfalso
    simp [syncServiceUpload, hlen] at hup
  · refine ⟨⟨some "", some env.now⟩, ?_, rfl, rfl, rfl⟩
    simp [syncServiceUpload, hlen, hok]

theorem dlRequest_conditional_headers_witness :
    (((dlRequest ⟨"https://d/", "u", "p", 5⟩ ⟨some "", some 7⟩).ifNoneMatch = some ""
      ∧ (dlRequest ⟨"https://d/", "u", "p", 5⟩ ⟨some "", some 7⟩).ifModifiedSince = some "")
    ∧ ∃ m', (syncServiceUpload (some ⟨"https://d/", "u", "p", 5⟩)
          ⟨some ⟨some "", some 7⟩, [⟨some 2⟩]⟩
          ⟨⟨304, Body.malformed, none⟩, 42, true⟩).state.meta = some m'
        ∧ m'.etag = some ""
        ∧ (dlRequest ⟨"https://d/", "u", "p", 5⟩ m').ifNoneMatch = some ""
        ∧ (dlRequest ⟨"https://d/", "u", "p", 5⟩ m').ifModifiedSince = some "") :=
  dlRequest_conditional_headers ⟨"https://d/", "u", "p", 5⟩ ⟨some "", some 7⟩ ""
    ⟨some ⟨some "", some 7⟩, [⟨some 2⟩]⟩ ⟨⟨304, Body.malformed, none⟩, 42, true⟩
    ⟨some 42, [⟨some 2⟩]⟩ rfl rfl (by decide)

/-- Claim C9: in every applied download cycle the write trace is setMeta
first and setNotebook second, and executing only the first write leaves the
local state with the new meta recorded and the notebook unchanged: the pair
of writes is not atomic. -/
theorem download_write_order (st : SyncState) (resp : HttpResponse)
    (r : DlResponse)
    (h : dlChanged (st.meta.getD emptyMeta) resp = some r) :
    downloadWrites st resp =
      [WriteOp.writeMeta ⟨some r.etag, r.json.timestamp⟩,
       WriteOp.writeNotebook r.json.words]
    ∧ applyWrites st ((downloadWrites st resp).take 1) =
        ⟨some ⟨some r.etag, r.json.timestamp⟩, st.notebook⟩ := by
  have hw : downloadWrites st resp =
      [WriteOp.writeMeta ⟨some r.etag, r.json.timestamp⟩,
       WriteOp.writeNotebook r.json.words] := by
    simp [downloadWrites, h]
  exact ⟨hw, by simp [hw, applyWrites, applyWrite]⟩

theorem download_write_order_witness :
    downloadWrites (⟨none, [⟨some 9⟩]⟩ : SyncState)
        ⟨200, Body.parsed ⟨some 5, WordsField.arr [⟨some 1⟩]⟩, some "e"⟩
      = [WriteOp.writeMeta ⟨some "e", some 5⟩, WriteOp.writeNotebook [⟨some 1⟩]]
    ∧ applyWrites ⟨none, [⟨some 9⟩]⟩
        ((downloadWrites (⟨none, [⟨some 9⟩]⟩ : SyncState)
          ⟨200, Body.parsed ⟨some 5, WordsField.arr [⟨some 1⟩]⟩, some "e"⟩).take 1)
      = ⟨some ⟨some "e", some 5⟩, [⟨some 9⟩]⟩ :=
  download_write_order ⟨none, [⟨some 9⟩]⟩
    ⟨200, Body.parsed ⟨some 5, WordsField.arr [⟨some 1⟩]⟩, some "e"⟩
    ⟨⟨some 5, [⟨some 1⟩]⟩, "e"⟩ (by decide)

/-- Claim C10: reflect always yields a result list of the same length and
order as its input, in which each fulfilled input is replaced by its value
and each rejected input by null; the combined promise always fulfills
because every element is given a catch handler first. -/
theorem reflect_resolves {E T : Type} (l : List (Except E T)) :
    (reflect l).length = l.length
    ∧ ∀ i : Nat, (reflect l)[i]? =
        (l[i]?).map (fun p =>
          match p with
          | Except.ok v => some v
          | Except.error _ => none) := by
  refine ⟨by simp [reflect], fun i => ?_⟩
  simp [reflect]

end Saladict
